import Mathlib

/-!
Shallow embedding of the `gigs` graphics-job scheduler (src/src/input.rs and
src/src/lib.rs) and proofs of the spec's claims about it.

Machine integers that matter here (entity ids, pipeline ids, priorities) are
modelled as `Nat`; none of the claims depends on overflow behaviour.
-/

namespace Gigs

/-- The status of a job input (`JobInputStatus` in src/src/input.rs). -/
inductive JobInputStatus : Type
  | Ready
  | Wait
  | Fail
deriving DecidableEq, Repr, Fintype

/-- `JobInputStatus::combine` from src/src/input.rs lines 40-48: `Fail` on
either side dominates, `Ready` only from two `Ready`s, otherwise `Wait`. -/
def JobInputStatus.combine : JobInputStatus → JobInputStatus → JobInputStatus
  | .Fail, _ => .Fail
  | _, .Fail => .Fail
  | .Ready, .Ready => .Ready
  | _, _ => .Wait

/-- The tuple implementation of `JobInput::status` generated by
`impl_job_input_tuple` (src/src/input.rs lines 95-99): it starts from
`JobInputStatus::Ready` and left-folds `combine` over the member statuses. -/
def tuple_status (l : List JobInputStatus) : JobInputStatus :=
  l.foldl JobInputStatus.combine .Ready

/-- The combination law in the spec's words (spec §3 / §8): `Fail` if any
element is `Fail`; else `Ready` iff all elements are `Ready`; else `Wait`. -/
def spec_combined_status (l : List JobInputStatus) : JobInputStatus :=
  if l.contains .Fail then .Fail
  else if l.all (fun s => s == JobInputStatus.Ready) then .Ready
  else .Wait

theorem combine_assoc (a b c : JobInputStatus) :
    (a.combine b).combine c = a.combine (b.combine c) := by
  cases a <;> cases b <;> cases c <;> rfl

theorem combine_ready_left (a : JobInputStatus) :
    JobInputStatus.Ready.combine a = a := by
  cases a <;> rfl

theorem combine_ready_right (a : JobInputStatus) :
    a.combine JobInputStatus.Ready = a := by
  cases a <;> rfl

theorem foldl_combine_shift (l : List JobInputStatus) (a : JobInputStatus) :
    l.foldl JobInputStatus.combine a = a.combine (tuple_status l) := by
  induction l generalizing a with
  | nil => simp [tuple_status, combine_ready_right]
  | cons b t ih =>
    simp only [tuple_status, List.foldl_cons]
    rw [ih (a.combine b), ih (JobInputStatus.Ready.combine b),
      combine_ready_left, combine_assoc]

theorem spec_combined_cons (s : JobInputStatus) (l : List JobInputStatus) :
    spec_combined_status (s :: l) = s.combine (spec_combined_status l) := by
  by_cases hf : JobInputStatus.Fail ∈ l <;>
    cases ha : l.all (fun s => s == JobInputStatus.Ready) <;>
    cases s <;>
    simp [spec_combined_status, List.contains_cons, List.all_cons, hf, ha,
      JobInputStatus.combine]

/-- C1: for every pair of input statuses and every tuple of member statuses,
`JobInputStatus::combine` and the tuple implementation of `JobInput::status`
compute exactly the spec's combination law: `Fail` if any element is `Fail`;
else `Ready` iff every element is `Ready`; else `Wait`. -/
theorem tuple_status_eq_spec_combined :
    ∀ (a b : JobInputStatus) (l : List JobInputStatus),
      a.combine b = spec_combined_status [a, b] ∧
      tuple_status l = spec_combined_status l := by
  have key : ∀ l : List JobInputStatus, tuple_status l = spec_combined_status l := by
    intro l
    induction l with
    | nil => rfl
    | cons s t ih =>
      rw [spec_combined_cons, ← ih]
      simp only [tuple_status, List.foldl_cons]
      rw [foldl_combine_shift, combine_ready_left]
      rfl
  intro a b l
  refine ⟨?_, key l⟩
  rw [← key [a, b]]
  simp only [tuple_status, List.foldl_cons, List.foldl_nil, combine_ready_left]

/-- C2: the binary combination on `JobInputStatus` is associative and
commutative with identity `Ready`, and the zero-input tuple instance of
`JobInput::status` (the empty fold) yields `Ready`. -/
theorem combine_comm_assoc_identity :
    (∀ a b c : JobInputStatus, (a.combine b).combine c = a.combine (b.combine c)) ∧
    (∀ a b : JobInputStatus, a.combine b = b.combine a) ∧
    (∀ a : JobInputStatus, JobInputStatus.Ready.combine a = a ∧
      a.combine JobInputStatus.Ready = a) ∧
    tuple_status [] = JobInputStatus.Ready := by
  refine ⟨combine_assoc, ?_, fun a => ⟨combine_ready_left a, combine_ready_right a⟩, rfl⟩
  intro a b
  cases a <;> cases b <;> rfl

/-- The per-job scheduler status (`JobStatus` in src/src/lib.rs lines 147-153). -/
inductive JobStatus : Type
  | Blocked
  | Waiting
  | Ready
  | Done
deriving DecidableEq, Repr

/-- One row of the query `extract_job_meta` iterates (src/src/lib.rs lines
119-133): the job's render-world entity, its declared and computed priorities
and its dependency set. Entities and priorities are modelled as `Nat`. -/
structure ExtractedJobMeta : Type where
  render_entity : Nat
  priority : Nat
  computed_priority : Nat
  deps : List Nat
deriving DecidableEq, Repr

/-- `extract_job_meta` from src/src/lib.rs lines 119-145: for each newly
admitted job it inserts, on the render-world entity, an initial `JobStatus`
(`Waiting` when `deps.0.is_empty()`, else `Blocked`) together with the
mirrored priorities and dependency list. The returned list holds the inserted
component bundles. -/
def extract_job_meta (jobs : List ExtractedJobMeta) :
    List (Nat × JobStatus × Nat × Nat × List Nat) :=
  jobs.map (fun j =>
    (j.render_entity,
     if j.deps.isEmpty then JobStatus.Waiting else JobStatus.Blocked,
     j.priority,
     j.computed_priority,
     j.deps))

/-- The initial status in the spec's words: a job with an empty dependency
set starts `Waiting`, a job with a non-empty dependency set starts `Blocked`. -/
def spec_initial_status (deps : List Nat) : JobStatus :=
  if deps = [] then JobStatus.Waiting else JobStatus.Blocked

/-- C3: for every newly admitted job, the component bundle mirrored to the
render world by `extract_job_meta` carries initial status `Waiting` when the
job's dependency set is empty and `Blocked` when it is non-empty. -/
theorem extract_job_meta_initial_status (jobs : List ExtractedJobMeta)
    (j : ExtractedJobMeta) (h : j ∈ jobs) :
    (j.render_entity, spec_initial_status j.deps, j.priority,
      j.computed_priority, j.deps) ∈ extract_job_meta jobs := by
  have : spec_initial_status j.deps =
      (if j.deps.isEmpty then JobStatus.Waiting else JobStatus.Blocked) := by
    simp [spec_initial_status, List.isEmpty_iff]
  rw [this]
  exact List.mem_map_of_mem _ h

/-- Witness for C3 at two concrete jobs: one with no dependencies mirrored as
`Waiting`, one with a dependency mirrored as `Blocked`. -/
theorem extract_job_meta_initial_status_witness :
    ((5, spec_initial_status [], 1, 2, []) ∈
      extract_job_meta [⟨5, 1, 2, []⟩, ⟨6, 3, 4, [5]⟩]) ∧
    ((6, spec_initial_status [5], 3, 4, [5]) ∈
      extract_job_meta [⟨5, 1, 2, []⟩, ⟨6, 3, 4, [5]⟩]) :=
  ⟨extract_job_meta_initial_status [⟨5, 1, 2, []⟩, ⟨6, 3, 4, [5]⟩] ⟨5, 1, 2, []⟩
      (by simp),
    extract_job_meta_initial_status [⟨5, 1, 2, []⟩, ⟨6, 3, 4, [5]⟩] ⟨6, 3, 4, [5]⟩
      (by simp)⟩

/-- `<Entity as JobInput>::status` and `get` (src/src/input.rs lines 112-124):
always `Ready`, the value is the entity itself. -/
def EntityInput.status (_data : Nat) : JobInputStatus := JobInputStatus.Ready

/-- `<Entity as JobInput>::get`: returns the query item (the entity). -/
def EntityInput.get (data : Nat) : Nat := data

/-- `<MainEntity as JobInput>::status` (src/src/input.rs lines 126-138). -/
def MainEntityInput.status (_data : Nat) : JobInputStatus := JobInputStatus.Ready

/-- `<MainEntity as JobInput>::get`: returns the handle. -/
def MainEntityInput.get (data : Nat) : Nat := data

/-- `<&T as JobInput>::status` (src/src/input.rs lines 140-152): a direct
reference to a job-local component is always `Ready`. -/
def ComponentRefInput.status {T : Type} (_data : T) : JobInputStatus :=
  JobInputStatus.Ready

/-- `<&T as JobInput>::get`: returns the stored data itself. -/
def ComponentRefInput.get {T : Type} (data : T) : T := data

/-- `<Option T as JobInput>::status` (src/src/input.rs lines 154-166):
always `Ready` whether or not the underlying data is present. -/
def OptionInput.status {T : Type} (_data : Option T) : JobInputStatus :=
  JobInputStatus.Ready

/-- `<Option T as JobInput>::get`: returns the present-or-absent data. -/
def OptionInput.get {T : Type} (data : Option T) : Option T := data

/-- C10: the direct-reference, job-handle/identity and optional input
providers always report `Ready` (so an optional input never blocks the job
even when absent), and their `get` returns respectively the stored data, the
handle, and the underlying data as present-or-absent. -/
theorem trivial_providers_always_ready :
    ∀ (e m : Nat) (T : Type) (t : T) (o : Option T),
      EntityInput.status e = JobInputStatus.Ready ∧
      MainEntityInput.status m = JobInputStatus.Ready ∧
      ComponentRefInput.status t = JobInputStatus.Ready ∧
      OptionInput.status o = JobInputStatus.Ready ∧
      OptionInput.status (none : Option T) = JobInputStatus.Ready ∧
      EntityInput.get e = e ∧
      MainEntityInput.get m = m ∧
      ComponentRefInput.get t = t ∧
      OptionInput.get o = o :=
  fun _ _ _ _ _ => ⟨rfl, rfl, rfl, rfl, rfl, rfl, rfl, rfl, rfl⟩

/-- The compile state of a cached pipeline. Modelled from the spec: the
`CachedPipelineState` enum belongs to the external Pipeline Specialization
Cache collaborator (spec §4.3: `Compiling | Ready | Failed`); src/src/input.rs
matches on its `Queued`-like in-flight states, its `Ok` variant (carrying the
compiled pipeline, modelled as a `Nat` handle) and its error variant. -/
inductive CachedPipelineState : Type
  | Queued
  | Creating
  | Ok (pipeline : Nat)
  | Err
deriving DecidableEq, Repr

/-- The external pipeline cache. Modelled from the spec (§4.3): an entry per
cached pipeline id holds its compile state and, once available (`Ok`), the
ready-to-use pipeline handle. Render and compute families are separate maps. -/
structure PipelineCache : Type where
  render_states : Nat → CachedPipelineState
  compute_states : Nat → CachedPipelineState

/-- `PipelineCache::get_render_pipeline_state` as observed by the code. -/
def PipelineCache.get_render_pipeline_state (c : PipelineCache) (id : Nat) :
    CachedPipelineState :=
  c.render_states id

/-- `PipelineCache::get_compute_pipeline_state` as observed by the code. -/
def PipelineCache.get_compute_pipeline_state (c : PipelineCache) (id : Nat) :
    CachedPipelineState :=
  c.compute_states id

/-- `PipelineCache::get_render_pipeline`. Modelled from the spec (§4.3): the
lookup yields the pipeline handle exactly when the entry's state is `Ok`. -/
def PipelineCache.get_render_pipeline (c : PipelineCache) (id : Nat) :
    Option Nat :=
  match c.render_states id with
  | .Ok p => some p
  | _ => none

/-- `PipelineCache::get_compute_pipeline`, same contract as the render one. -/
def PipelineCache.get_compute_pipeline (c : PipelineCache) (id : Nat) :
    Option Nat :=
  match c.compute_states id with
  | .Ok p => some p
  | _ => none

/-- `<JobRenderPipeline as JobInput>::status` (src/src/input.rs lines
273-287): `Wait` when the job carries no `JobRenderPipelineId` component;
otherwise `Ready` exactly when the cache reports `CachedPipelineState::Ok`,
else `Wait`. -/
def JobRenderPipeline.status (data : Option Nat) (world : PipelineCache) :
    JobInputStatus :=
  match data with
  | none => JobInputStatus.Wait
  | some id =>
    match world.get_render_pipeline_state id with
    | .Ok _ => JobInputStatus.Ready
    | _ => JobInputStatus.Wait

/-- `<JobRenderPipeline as JobInput>::get` (src/src/input.rs lines 289-295):
unwraps the id component and looks the pipeline up in the cache; `none`
models reaching the `unwrap`/`expect` panic branch. -/
def JobRenderPipeline.get (data : Option Nat) (world : PipelineCache) :
    Option Nat :=
  match data with
  | none => none
  | some id => world.get_render_pipeline id

/-- `<JobComputePipeline as JobInput>::status` (src/src/input.rs lines
391-405), same shape as the render variant over the compute family. -/
def JobComputePipeline.status (data : Option Nat) (world : PipelineCache) :
    JobInputStatus :=
  match data with
  | none => JobInputStatus.Wait
  | some id =>
    match world.get_compute_pipeline_state id with
    | .Ok _ => JobInputStatus.Ready
    | _ => JobInputStatus.Wait

/-- `<JobComputePipeline as JobInput>::get` (src/src/input.rs lines 407-413). -/
def JobComputePipeline.get (data : Option Nat) (world : PipelineCache) :
    Option Nat :=
  match data with
  | none => none
  | some id => world.get_compute_pipeline id

/-- C4: a specialized-pipeline-bound input is `Wait` while no cached pipeline
id is attached or while the cache does not report the entry compiled (`Ok`),
`Ready` once it does, and never `Fail` — in particular a cache compile error
(`Err`) still yields `Wait`. Stated for both the render and compute variants. -/
theorem pipeline_input_status_spec :
    ∀ (world : PipelineCache) (rdata cdata : Option Nat) (id : Nat),
      JobRenderPipeline.status rdata world ≠ JobInputStatus.Fail ∧
      (JobRenderPipeline.status rdata world = JobInputStatus.Ready ↔
        ∃ i p, rdata = some i ∧
          world.get_render_pipeline_state i = CachedPipelineState.Ok p) ∧
      JobRenderPipeline.status none world = JobInputStatus.Wait ∧
      (world.get_render_pipeline_state id = CachedPipelineState.Err →
        JobRenderPipeline.status (some id) world = JobInputStatus.Wait) ∧
      JobComputePipeline.status cdata world ≠ JobInputStatus.Fail ∧
      (JobComputePipeline.status cdata world = JobInputStatus.Ready ↔
        ∃ i p, cdata = some i ∧
          world.get_compute_pipeline_state i = CachedPipelineState.Ok p) ∧
      JobComputePipeline.status none world = JobInputStatus.Wait ∧
      (world.get_compute_pipeline_state id = CachedPipelineState.Err →
        JobComputePipeline.status (some id) world = JobInputStatus.Wait) := by
  intro world rdata cdata id
  refine ⟨?_, ?_, rfl, ?_, ?_, ?_, rfl, ?_⟩
  · cases rdata with
    | none => simp [JobRenderPipeline.status]
    | some i =>
      simp only [JobRenderPipeline.status]
      cases world.get_render_pipeline_state i <;> simp
  · cases rdata with
    | none => simp [JobRenderPipeline.status]
    | some i =>
      simp only [JobRenderPipeline.status]
      cases h : world.get_render_pipeline_state i <;> simp [h]
  · intro h
    simp [JobRenderPipeline.status, h]
  · cases cdata with
    | none => simp [JobComputePipeline.status]
    | some i =>
      simp only [JobComputePipeline.status]
      cases world.get_compute_pipeline_state i <;> simp
  · cases cdata with
    | none => simp [JobComputePipeline.status]
    | some i =>
      simp only [JobComputePipeline.status]
      cases h : world.get_compute_pipeline_state i <;> simp [h]
  · intro h
    simp [JobComputePipeline.status, h]

/-- `<JobAsBindGroup as JobInput>::status` (src/src/input.rs lines 179-184):
`Ready` exactly when the job carries a `PreparedJobBindGroup` component
(modelled as `some` of the prepared bind group, a `Nat` handle), else `Wait`. -/
def JobAsBindGroup.status (data : Option Nat) : JobInputStatus :=
  match data with
  | some _ => JobInputStatus.Ready
  | none => JobInputStatus.Wait

/-- `<JobAsBindGroup as JobInput>::get` (src/src/input.rs lines 186-189):
unwraps the component; `none` models reaching the `unwrap` panic branch. -/
def JobAsBindGroup.get (data : Option Nat) : Option Nat := data

/-- `prepare_job_bind_group` (src/src/input.rs lines 227-241) as one tick of
the bind-group preparer. It loops over every entity of the `Query<(Entity,
&J)>` (`jobs`); `as_bind_group e` is the outcome of
`job.as_bind_group(...)` for that entity this tick (`some` = `Ok`, `none` =
`Err`); on `Ok` the command queue inserts (overwrites) the
`PreparedJobBindGroup` component, on `Err` nothing is inserted. `comps` maps
each entity to its current component, the result maps each entity to its
component after the tick's commands apply. -/
def prepare_job_bind_group (jobs : List Nat) (as_bind_group : Nat → Option Nat)
    (comps : Nat → Option Nat) : Nat → Option Nat :=
  jobs.foldl
    (fun cs e =>
      match as_bind_group e with
      | some bg => fun x => if x = e then some bg else cs x
      | none => cs)
    comps

theorem prepare_job_bind_group_apply (jobs : List Nat)
    (as_bind_group : Nat → Option Nat) (comps : Nat → Option Nat) (e : Nat) :
    prepare_job_bind_group jobs as_bind_group comps e =
      if e ∈ jobs then
        match as_bind_group e with
        | some bg => some bg
        | none => comps e
      else comps e := by
  induction jobs generalizing comps with
  | nil => simp [prepare_job_bind_group]
  | cons a t ih =>
    simp only [prepare_job_bind_group, List.foldl_cons] at ih ⊢
    rw [ih]
    by_cases het : e ∈ t
    · cases h : as_bind_group e with
      | some bg => simp [het, List.mem_cons, h]
      | none =>
        by_cases hea : e = a
        · subst hea
          simp [het, List.mem_cons, h]
        · cases h2 : as_bind_group a <;> simp [het, List.mem_cons, h, h2, hea]
    · by_cases hea : e = a
      · subst hea
        cases h : as_bind_group e <;> simp [h, het, List.mem_cons]
      · cases h : as_bind_group a <;> simp [h, het, hea, List.mem_cons]

/-- C5: a GPU-resource-bound (bind group) input is `Wait` while the job has
no `PreparedJobBindGroup` component, `Ready` once one is attached, and never
`Fail`; and when `as_bind_group` fails for a job in a tick, the preparer
attaches nothing (the component stays as it was), while any later tick in
which it succeeds attaches the component, since the preparer re-attempts
every job on every tick. -/
theorem bind_group_input_status_spec :
    ∀ (data : Option Nat) (bg : Nat) (jobs : List Nat)
      (f g : Nat → Option Nat) (comps : Nat → Option Nat) (e : Nat),
      JobAsBindGroup.status none = JobInputStatus.Wait ∧
      JobAsBindGroup.status (some bg) = JobInputStatus.Ready ∧
      JobAsBindGroup.status data ≠ JobInputStatus.Fail ∧
      (f e = none → prepare_job_bind_group jobs f comps e = comps e) ∧
      (e ∈ jobs → g e = some bg →
        prepare_job_bind_group jobs g
          (prepare_job_bind_group jobs f comps) e = some bg) := by
  intro data bg jobs f g comps e
  refine ⟨rfl, rfl, ?_, ?_, ?_⟩
  · cases data <;> simp [JobAsBindGroup.status]
  · intro hf
    rw [prepare_job_bind_group_apply]
    split <;> simp [hf]
  · intro he hg
    rw [prepare_job_bind_group_apply]
    simp [he, hg]

/-- Counterexample to C6 at a concrete input: entity `0` already carries
prepared bind group `1` and nothing about the job changed, yet one more tick
of `prepare_job_bind_group` (whose query has no change-detection filter and
does not skip already-prepared jobs) rebuilds and replaces it with `2`. -/
theorem prepare_job_bind_group_not_once :
    prepare_job_bind_group [0] (fun _ => some 2) (fun _ => some 1) 0 = some 2 ∧
    (some 2 : Option Nat) ≠ some 1 := by
  constructor
  · rfl
  · simp

/-- C6 amended: the preparer runs each tick over every job with the job
component, re-attempting bind-group construction regardless of whether a
prepared bind group is already attached or the job changed; on success the
new bind group replaces any existing one, on failure the existing component
(if any) is left in place, and entities outside the query are untouched. -/
theorem prepare_job_bind_group_every_tick :
    ∀ (jobs : List Nat) (as_bind_group : Nat → Option Nat)
      (comps : Nat → Option Nat) (e : Nat),
      prepare_job_bind_group jobs as_bind_group comps e =
        if e ∈ jobs then
          match as_bind_group e with
          | some bg => some bg
          | none => comps e
        else comps e :=
  fun jobs as_bind_group comps e =>
    prepare_job_bind_group_apply jobs as_bind_group comps e

/-- C8: for every input provider, if `status` on a snapshot is `Ready` then
`get` on the same snapshot succeeds without hitting a panic branch (modelled
as returning `some`): `JobAsBindGroup`'s component `unwrap` succeeds, and the
pipeline-cache lookups of `JobRenderPipeline`/`JobComputePipeline` return
`Some`, so the `expect` never fires. -/
theorem status_ready_get_succeeds :
    ∀ (world : PipelineCache) (bgdata rdata cdata : Option Nat),
      (JobAsBindGroup.status bgdata = JobInputStatus.Ready →
        (JobAsBindGroup.get bgdata).isSome) ∧
      (JobRenderPipeline.status rdata world = JobInputStatus.Ready →
        (JobRenderPipeline.get rdata world).isSome) ∧
      (JobComputePipeline.status cdata world = JobInputStatus.Ready →
        (JobComputePipeline.get cdata world).isSome) := by
  intro world bgdata rdata cdata
  refine ⟨?_, ?_, ?_⟩
  · intro h
    cases bgdata with
    | none => simp [JobAsBindGroup.status] at h
    | some bg => simp [JobAsBindGroup.get]
  · intro h
    cases rdata with
    | none => simp [JobRenderPipeline.status] at h
    | some id =>
      simp only [JobRenderPipeline.status] at h
      simp only [JobRenderPipeline.get, PipelineCache.get_render_pipeline]
      cases hs : world.get_render_pipeline_state id with
      | Ok p =>
        simp only [PipelineCache.get_render_pipeline_state] at hs
        simp [hs]
      | _ => simp [hs] at h
  · intro h
    cases cdata with
    | none => simp [JobComputePipeline.status] at h
    | some id =>
      simp only [JobComputePipeline.status] at h
      simp only [JobComputePipeline.get, PipelineCache.get_compute_pipeline]
      cases hs : world.get_compute_pipeline_state id with
      | Ok p =>
        simp only [PipelineCache.get_compute_pipeline_state] at hs
        simp [hs]
      | _ => simp [hs] at h

/-- A pipeline-family specialization cache. Modelled from the spec (§3, §4.3,
the external `SpecializedRenderPipelines`/`SpecializedComputePipelines`
collaborators): `cache` maps each seen specialization key to its stable
cached-pipeline id, `queued` records the compile/link requests issued so far
(fresh ids are indices into that request sequence). -/
structure SpecializedPipelines (K : Type) : Type where
  cache : List (K × Nat)
  queued : List K

/-- `specialize(base_pipeline, key)`. Modelled from the spec (§4.3): look up
an existing entry for the key; if absent, issue a compile request, record a
pending entry under a fresh id, and return it; the returned id is stable
across calls with the same key. -/
def SpecializedPipelines.specialize {K : Type} [DecidableEq K]
    (s : SpecializedPipelines K) (key : K) : Nat × SpecializedPipelines K :=
  match s.cache.lookup key with
  | some id => (id, s)
  | none =>
    (s.queued.length,
      ⟨(key, s.queued.length) :: s.cache, s.queued ++ [key]⟩)

/-- `queue_job_render_pipelines` (src/src/input.rs lines 346-359) as one tick:
the system's query carries a `Changed<JobRenderPipeline<P>>` filter, so it
iterates only jobs whose pipeline key component changed this tick, calls
`specialize` on each job's key, and inserts the resulting
`JobRenderPipelineId` component. `jobs` pairs each entity with its key,
`changed` is the change-detection filter, `ids` maps entities to their
current id component. -/
def queue_job_render_pipelines {K : Type} [DecidableEq K]
    (jobs : List (Nat × K)) (changed : Nat → Bool)
    (specializer : SpecializedPipelines K) (ids : Nat → Option Nat) :
    SpecializedPipelines K × (Nat → Option Nat) :=
  (jobs.filter (fun j => changed j.1)).foldl
    (fun acc j =>
      ((acc.1.specialize j.2).2,
        fun x => if x = j.1 then some (acc.1.specialize j.2).1 else acc.2 x))
    (specializer, ids)

/-- `queue_job_compute_pipelines` (src/src/input.rs lines 464-477): identical
to the render variant over `SpecializedComputePipelines` and
`JobComputePipelineId`. -/
def queue_job_compute_pipelines {K : Type} [DecidableEq K]
    (jobs : List (Nat × K)) (changed : Nat → Bool)
    (specializer : SpecializedPipelines K) (ids : Nat → Option Nat) :
    SpecializedPipelines K × (Nat → Option Nat) :=
  (jobs.filter (fun j => changed j.1)).foldl
    (fun acc j =>
      ((acc.1.specialize j.2).2,
        fun x => if x = j.1 then some (acc.1.specialize j.2).1 else acc.2 x))
    (specializer, ids)

theorem specialize_lookup_self {K : Type} [DecidableEq K]
    (s : SpecializedPipelines K) (key : K) :
    (s.specialize key).2.cache.lookup key = some (s.specialize key).1 := by
  unfold SpecializedPipelines.specialize
  cases h : s.cache.lookup key with
  | some id => simp [h]
  | none => simp [List.lookup]

theorem specialize_of_lookup {K : Type} [DecidableEq K]
    (s : SpecializedPipelines K) (key : K) (id : Nat)
    (h : s.cache.lookup key = some id) : s.specialize key = (id, s) := by
  simp [SpecializedPipelines.specialize, h]

theorem specialize_twice {K : Type} [DecidableEq K]
    (s : SpecializedPipelines K) (key : K) :
    (s.specialize key).2.specialize key = s.specialize key := by
  have h := specialize_of_lookup (s.specialize key).2 key (s.specialize key).1
    (specialize_lookup_self s key)
  rw [h]

theorem queue_fold_unchanged {K : Type} [DecidableEq K]
    (changed : Nat → Bool) (l : List (Nat × K))
    (hl : ∀ j ∈ l, changed j.1 = true)
    (s : SpecializedPipelines K) (ids : Nat → Option Nat) (e : Nat)
    (he : changed e = false) :
    (l.foldl
      (fun (acc : SpecializedPipelines K × (Nat → Option Nat)) (j : Nat × K) =>
        ((acc.1.specialize j.2).2,
          fun x => if x = j.1 then some (acc.1.specialize j.2).1 else acc.2 x))
      (s, ids)).2 e = ids e := by
  induction l generalizing s ids with
  | nil => rfl
  | cons a t ih =>
    simp only [List.foldl_cons]
    rw [ih (fun j hj => hl j (List.mem_cons_of_mem a hj))]
    have hne : e ≠ a.1 := by
      intro hea
      have ha := hl a (List.mem_cons_self a t)
      rw [← hea, he] at ha
      simp at ha
    simp [hne]

/-- C7: pipeline specialization is idempotent and memoized — specializing
twice with the same key within one pipeline family returns the same cached
id and leaves the cache and the issued compile requests unchanged — and the
render/compute queueing systems, whose queries are gated on
`Changed<JobRenderPipeline>`/`Changed<JobComputePipeline>`, leave the cached
pipeline id of any job whose key component did not change untouched. -/
theorem specialization_idempotent_and_change_gated :
    ∀ (K : Type) (_instK : DecidableEq K) (s : SpecializedPipelines K) (key : K)
      (jobs : List (Nat × K)) (changed : Nat → Bool)
      (ids : Nat → Option Nat) (e : Nat),
      ((s.specialize key).2.specialize key).1 = (s.specialize key).1 ∧
      ((s.specialize key).2.specialize key).2.queued = (s.specialize key).2.queued ∧
      ((s.specialize key).2.specialize key).2.cache = (s.specialize key).2.cache ∧
      (changed e = false →
        (queue_job_render_pipelines jobs changed s ids).2 e = ids e) ∧
      (changed e = false →
        (queue_job_compute_pipelines jobs changed s ids).2 e = ids e) := by
  intro K _instK s key jobs changed ids e
  have h2 := specialize_twice s key
  refine ⟨by rw [h2], by rw [h2], by rw [h2], ?_, ?_⟩ <;>
    intro he <;>
    exact queue_fold_unchanged changed _
      (fun j hj => (List.mem_filter.mp hj).2) s ids e he

/-- Witness for C7 at a concrete input: a fresh cache, key `7`, one job whose
key did not change this tick — its id component (`some 3`) is untouched by
both queueing systems, and the second `specialize` returns the same id. -/
theorem specialization_idempotent_witness :
    (((SpecializedPipelines.mk ([] : List (Nat × Nat)) []).specialize
        7).2.specialize 7).1 =
      ((SpecializedPipelines.mk ([] : List (Nat × Nat)) []).specialize 7).1 ∧
    (queue_job_render_pipelines [(4, 7)] (fun _ => false)
        (SpecializedPipelines.mk ([] : List (Nat × Nat)) [])
        (fun _ => some 3)).2 4 = some 3 := by
  have h := specialization_idempotent_and_change_gated Nat inferInstance
    (SpecializedPipelines.mk ([] : List (Nat × Nat)) []) 7 [(4, 7)]
    (fun _ => false) (fun _ => some 3) 4
  exact ⟨h.1, h.2.2.2.1 rfl⟩

/-- Per-job state of the frame executor. Modelled from the spec: the runner
module (src/src/lib.rs declares `mod runner`, `mod meta`, `mod app`, none of
which are among the source files) drives the `Blocked → Waiting → Ready →
Done` machine of spec §4.5-§4.6. `Waiting` carries the count of consecutive
ticks already spent in `Waiting`; `Done` carries the failure marker. -/
inductive ExecJobState : Type
  | Blocked
  | Waiting (stall : Nat)
  | Ready
  | Done (failed : Bool)
deriving DecidableEq, Repr

/-- Modelled from the spec (§4.6 step 1): a `Blocked` job whose declared
dependencies are all satisfied advances to `Waiting` with a fresh stall
counter; every other state is left unchanged by this phase. -/
def advance_deps (deps_done : Bool) : ExecJobState → ExecJobState
  | .Blocked => if deps_done then .Waiting 0 else .Blocked
  | .Waiting n => .Waiting n
  | .Ready => .Ready
  | .Done b => .Done b

/-- Modelled from the spec (§4.5, §4.6 step 2): polling a `Waiting` job with
the combined status of its inputs: `Ready` advances it, `Fail` forces `Done`
(failed), and `Wait` leaves it `Waiting` unless it has now spent more than
`max_job_stall_frames` consecutive ticks in `Waiting`, in which case it is
forced to `Done` (failed). Other states are not polled. -/
def poll_waiting (max_job_stall_frames : Nat) (input : JobInputStatus) :
    ExecJobState → ExecJobState
  | .Blocked => .Blocked
  | .Waiting n =>
    match input with
    | .Ready => .Ready
    | .Fail => .Done true
    | .Wait =>
      if max_job_stall_frames < n + 1 then .Done true else .Waiting (n + 1)
  | .Ready => .Ready
  | .Done b => .Done b

/-- Modelled from the spec (§4.6 steps 3-4): a `Ready` job selected under the
per-frame budget this tick executes and becomes `Done` (carrying whether its
run logic failed); an unselected `Ready` job stays `Ready`; other states do
not execute. -/
def execute_selected (selected run_failed : Bool) : ExecJobState → ExecJobState
  | .Blocked => .Blocked
  | .Waiting n => .Waiting n
  | .Ready => if selected then .Done run_failed else .Ready
  | .Done b => .Done b

/-- What one tick observes about a job: whether its dependencies are all
satisfied, its combined input status, whether the executor selects it under
the budget, and whether its run logic fails. -/
structure TickObs : Type where
  deps_done : Bool
  input : JobInputStatus
  selected : Bool
  run_failed : Bool
deriving DecidableEq, Repr

/-- One scheduler tick for a single job, in the spec's §4.6 order:
dependency advancement, then readiness polling, then execution selection. -/
def sched_tick (max_job_stall_frames : Nat) (o : TickObs)
    (s : ExecJobState) : ExecJobState :=
  execute_selected o.selected o.run_failed
    (poll_waiting max_job_stall_frames o.input (advance_deps o.deps_done s))

/-- A run of the scheduler: one tick per element of `ticks`. -/
def sched_run (max_job_stall_frames : Nat) (ticks : List TickObs)
    (s : ExecJobState) : ExecJobState :=
  ticks.foldl (fun st o => sched_tick max_job_stall_frames o st) s

/-- Consecutive ticks a state has already spent in `Waiting`. -/
def stall_ticks_of : ExecJobState → Nat
  | .Blocked => 0
  | .Waiting n => n
  | .Ready => 0
  | .Done _ => 0

theorem sched_tick_stall_le (m : Nat) (o : TickObs) (s : ExecJobState)
    (h : stall_ticks_of s ≤ m) :
    stall_ticks_of (sched_tick m o s) ≤ m := by
  obtain ⟨d, i, sel, rf⟩ := o
  have key : ∀ n : Nat,
      stall_ticks_of
        (execute_selected sel rf (poll_waiting m i (.Waiting n))) ≤ m := by
    intro n
    cases i with
    | Ready =>
      cases sel <;> simp [poll_waiting, execute_selected, stall_ticks_of]
    | Fail => simp [poll_waiting, execute_selected, stall_ticks_of]
    | Wait =>
      by_cases hlt : m < n + 1
      · simp [poll_waiting, execute_selected, stall_ticks_of, hlt]
      · simp only [poll_waiting, execute_selected, stall_ticks_of, if_neg hlt]
        omega
  cases s with
  | Blocked =>
    cases d with
    | true => exact key 0
    | false =>
      simp [sched_tick, advance_deps, poll_waiting, execute_selected,
        stall_ticks_of]
  | Waiting n => exact key n
  | Ready =>
    cases sel <;>
      simp [sched_tick, advance_deps, poll_waiting, execute_selected,
        stall_ticks_of]
  | Done b =>
    simp [sched_tick, advance_deps, poll_waiting, execute_selected,
      stall_ticks_of]

theorem sched_run_stall_le (m : Nat) (ticks : List TickObs) (s : ExecJobState)
    (h : stall_ticks_of s ≤ m) :
    stall_ticks_of (sched_run m ticks s) ≤ m := by
  induction ticks generalizing s with
  | nil => exact h
  | cons o t ih =>
    exact ih (sched_tick m o s) (sched_tick_stall_le m o s h)

theorem sched_run_done (m : Nat) (ticks : List TickObs) (b : Bool) :
    sched_run m ticks (.Done b) = .Done b := by
  induction ticks with
  | nil => rfl
  | cons o t ih => exact ih

theorem sched_run_stall_out (m : Nat) :
    ∀ (j n : Nat), n ≤ m → m < n + j →
      sched_run m (List.replicate j ⟨true, .Wait, false, false⟩) (.Waiting n) =
        .Done true := by
  intro j
  induction j with
  | zero => omega
  | succ k ih =>
    intro n hn hm
    rw [List.replicate_succ]
    show sched_run m _ (sched_tick m ⟨true, .Wait, false, false⟩ (.Waiting n)) =
      .Done true
    by_cases hlt : m < n + 1
    · have ht : sched_tick m ⟨true, .Wait, false, false⟩ (.Waiting n) =
          .Done true := by
        simp [sched_tick, advance_deps, poll_waiting, execute_selected, hlt]
      rw [ht, sched_run_done]
    · have ht : sched_tick m ⟨true, .Wait, false, false⟩ (.Waiting n) =
          .Waiting (n + 1) := by
        simp [sched_tick, advance_deps, poll_waiting, execute_selected, hlt]
      rw [ht]
      exact ih (n + 1) (by omega) (by omega)

/-- C9: in every run of the (spec-modelled) frame executor, a job remains in
`Waiting` for at most `max_job_stall_frames` consecutive ticks — from any
admissible start state its stall counter never exceeds the bound — and a job
whose inputs stay unready for `max_job_stall_frames + 1` consecutive ticks is
forced to `Done` with the failure marker set. -/
theorem stall_bound :
    ∀ (max_job_stall_frames : Nat) (ticks : List TickObs) (b : Bool),
      stall_ticks_of
          (sched_run max_job_stall_frames ticks (.Waiting 0)) ≤
        max_job_stall_frames ∧
      stall_ticks_of (sched_run max_job_stall_frames ticks .Blocked) ≤
        max_job_stall_frames ∧
      stall_ticks_of (sched_run max_job_stall_frames ticks .Ready) ≤
        max_job_stall_frames ∧
      stall_ticks_of (sched_run max_job_stall_frames ticks (.Done b)) ≤
        max_job_stall_frames ∧
      sched_run max_job_stall_frames
          (List.replicate (max_job_stall_frames + 1)
            ⟨true, .Wait, false, false⟩)
          (.Waiting 0) =
        .Done true := by
  intro m ticks b
  refine ⟨?_, ?_, ?_, ?_, ?_⟩
  · exact sched_run_stall_le m ticks _ (Nat.zero_le m)
  · exact sched_run_stall_le m ticks _ (Nat.zero_le m)
  · exact sched_run_stall_le m ticks _ (Nat.zero_le m)
  · exact sched_run_stall_le m ticks _ (Nat.zero_le m)
  · exact sched_run_stall_out m (m + 1) 0 (Nat.zero_le m) (by omega)
